import Mathlib

/-!
Verification development for the jrsonnet object engine
(`crates/jrsonnet-evaluator/src/obj.rs`).

The engine's data model is embedded shallowly:

* `ObjValue` becomes the inductive `Obj`.  Rust `Gc` reference identity is
  made explicit as an `oid : Nat` field; `assertions_ran` (a
  `FxHashSet<ObjValue>`) becomes a list of identities, and `value_cache`
  (a `FxHashMap<(IStr, ObjValue), Option<Val>>`) becomes an association
  list keyed by `(Key, Nat)`.
* The external `LazyBinding` / `ObjectAssertion` closures (they live
  outside `obj.rs`; the engine only invokes them with `self`/`super`) are
  defunctionalised into the small expression type `Expr`; forcing a
  binding means evaluating its `Expr` with the given `self` and `super`.
* Interior mutability is modelled by state passing: the stateful engine
  functions return their result together with the updated receiver node
  (whose super chain carries the updated ancestor nodes).  The engine is
  recursive through member closures, so every engine function takes a
  fuel argument; exhausting it yields the `stackOverflow` error, mirroring
  the evaluator's max-stack configuration.
* Rust mutates aliased nodes in place.  For the marker set the embedding
  reproduces the observable aliasing: `run_assertions_raw` inserts the
  marker into the receiver before running its assertions, and the marked
  receiver is substituted for `real_this` when the two are the same node,
  so nested lookups made by an assertion or member body see the marker.
  Nested lookups inside member or assertion bodies otherwise act on
  snapshots: the cache writes they make through the shared `GcCell` graph
  in Rust are not merged back into the outer call's state here.  Cache
  statements proved below are therefore confined to the writes the engine
  functions perform themselves, and claim-level cache statements are kept
  per looked-up `(key, effective self)`, where the two semantics agree: a
  nested lookup writes under its own key and its own effective self, and a
  re-entrant lookup of the same `(key, effective self)` re-forces the same
  member and cannot complete, so it never populates that entry.
-/

namespace JrObj

abbrev Key := String

inductive Visibility where
  | normal
  | hidden
  | unhide
deriving DecidableEq, Repr

def Visibility.is_visible : Visibility → Bool
  | .normal => true
  | .hidden => false
  | .unhide => true

/-- Evaluator values.  `Val` in the repository also has null/function/object
variants; the engine treats values opaquely except for `evaluate_add_op`, and
the claims only need booleans, numbers, strings and arrays. -/
inductive Val where
  | bool (b : Bool)
  | num (n : Int)
  | str (s : String)
  | arr (l : List Val)

mutual

/-- Structural value equality (the external `equals` used by assertion
bodies; only the claims' value shapes are compared). -/
def Val.beq : Val → Val → Bool
  | .bool a, .bool b => a == b
  | .num a, .num b => a == b
  | .str a, .str b => a == b
  | .arr a, .arr b => Val.beqList a b
  | _, _ => false

def Val.beqList : List Val → List Val → Bool
  | [], [] => true
  | a :: as, b :: bs => Val.beq a b && Val.beqList as bs
  | _, _ => false

end

inductive Err where
  | stackOverflow
  | assertionFailed
  | noSuchField
  | typeError
deriving DecidableEq, Repr

/-- Defunctionalised `LazyBinding` / `ObjectAssertion` bodies.  The engine
invokes these closures with an optional self and super object (`obj.rs`
always passes `Some(real_this)` for self); `Expr` covers the closure
behaviours the claims exercise: constants, `self.k`, `super.k`, the add
operator, equality tests (for assertions), and an always-failing body. -/
inductive Expr where
  | lit (v : Val)
  | selfField (k : Key)
  | superField (k : Key)
  | addE (a b : Expr)
  | eqE (a b : Expr)
  | failE

/-- `ObjMember`: additive flag, visibility and the lazy binding.  The
`location` field of the source is diagnostics-only and omitted. -/
structure ObjMember where
  add : Bool
  visibility : Visibility
  invoke : Expr

/-- `ObjValueInternals`: `oid` is the node's `Gc` identity made explicit;
the remaining fields mirror `super_obj`, `assertions`, `assertions_ran`,
`this_obj`, `this_entries` and `value_cache`. -/
inductive Obj where
  | mk (oid : Nat) (superObj : Option Obj) (assertions : List Expr)
      (assertionsRan : List Nat) (thisObj : Option Obj)
      (thisEntries : List (Key × ObjMember))
      (valueCache : List ((Key × Nat) × Option Val))

def Obj.oid : Obj → Nat
  | .mk i _ _ _ _ _ _ => i

def Obj.superObj : Obj → Option Obj
  | .mk _ s _ _ _ _ _ => s

def Obj.assertions : Obj → List Expr
  | .mk _ _ a _ _ _ _ => a

def Obj.assertionsRan : Obj → List Nat
  | .mk _ _ _ r _ _ _ => r

def Obj.thisObj : Obj → Option Obj
  | .mk _ _ _ _ t _ _ => t

def Obj.thisEntries : Obj → List (Key × ObjMember)
  | .mk _ _ _ _ _ e _ => e

def Obj.valueCache : Obj → List ((Key × Nat) × Option Val)
  | .mk _ _ _ _ _ _ c => c

/-- Replace the super object (used to thread updated ancestor state). -/
def Obj.withSuper : Obj → Obj → Obj
  | .mk i _ a r t e c, s => .mk i (some s) a r t e c

/-- `assertions_ran.insert(real_this)`. -/
def Obj.insertMarker : Obj → Nat → Obj
  | .mk i s a r t e c, n => .mk i s a (n :: r) t e c

/-- `assertions_ran.remove(real_this)`. -/
def Obj.removeMarker : Obj → Nat → Obj
  | .mk i s a r t e c, n => .mk i s a (r.filter (fun x => x ≠ n)) t e c

/-- `value_cache.insert(cache_key, value)`. -/
def Obj.insertCache : Obj → (Key × Nat) → Option Val → Obj
  | .mk i s a r t e c, ck, v => .mk i s a r t e ((ck, v) :: c)

/-- Membership test of the `assertions_ran` set. -/
def hasMarker : List Nat → Nat → Bool
  | [], _ => false
  | x :: xs, n => if x = n then true else hasMarker xs n

/-- Lookup in the `value_cache` map. -/
def cacheLookup : List ((Key × Nat) × Option Val) → (Key × Nat) → Option (Option Val)
  | [], _ => none
  | (ck, v) :: rest, k => if ck = k then some v else cacheLookup rest k

/-- Lookup in the `this_entries` map. -/
def lookupMember : List (Key × ObjMember) → Key → Option ObjMember
  | [], _ => none
  | (k, m) :: rest, key => if k = key then some m else lookupMember rest key

/-- Modelled from the spec: `evaluate_add_op` lives outside `obj.rs`; §6 of
the specification defines it for number+number, string+string and
array+array (object+object composition is not exercised by the claims);
anything else surfaces an error. -/
def evalAdd : Val → Val → Except Err Val
  | .num a, .num b => .ok (.num (a + b))
  | .str a, .str b => .ok (.str (a ++ b))
  | .arr a, .arr b => .ok (.arr (a ++ b))
  | _, _ => .error .typeError

/-- `ObjValue::new(super_obj, this_entries, assertions)`: fresh caches,
fresh `assertions_ran`, no pinned self.  The fresh `Gc` address is made
explicit as the `i` argument. -/
def Obj.new (i : Nat) (sup : Option Obj) (entries : List (Key × ObjMember))
    (asserts : List Expr) : Obj :=
  .mk i sup asserts [] none entries []

/-- `ObjValue::new_empty()`. -/
def Obj.new_empty (i : Nat) : Obj :=
  Obj.new i none [] []

/-- `ObjValue::extend_from`: graft `parent` at the bottom of the receiver's
super chain; each recursion level allocates a fresh node (ids `fresh`,
`fresh+1`, ...). -/
def extend_from : Obj → Obj → Nat → Obj
  | .mk _ none asserts _ _ entries _, parent, fresh =>
      Obj.new fresh (some parent) entries asserts
  | .mk _ (some v) asserts _ _ entries _, parent, fresh =>
      Obj.new fresh (some (extend_from v parent (fresh + 1))) entries asserts

/-- `ObjValue::with_this`: share super, assertions and entries, pin
`this_obj`, fresh caches and fresh `assertions_ran`; `i` is the new node's
fresh identity. -/
def with_this (o : Obj) (t : Obj) (i : Nat) : Obj :=
  match o with
  | .mk _ s a _ _ e _ => .mk i s a [] (some t) e []

mutual

/-- Forcing a defunctionalised `LazyBinding` / running an
`ObjectAssertion` body: evaluate the `Expr` with the given self and
optional super object. -/
def evalExpr : Nat → Obj → Option Obj → Expr → Except Err Val
  | 0, _, _, _ => .error .stackOverflow
  | f + 1, slf, sup, e =>
    match e with
    | .lit v => .ok v
    | .selfField k =>
      match (get f slf k).1 with
      | .error er => .error er
      | .ok none => .error .noSuchField
      | .ok (some v) => .ok v
    | .superField k =>
      match sup with
      | none => .error .noSuchField
      | some s =>
        match (get f s k).1 with
        | .error er => .error er
        | .ok none => .error .noSuchField
        | .ok (some v) => .ok v
    | .addE a b =>
      match evalExpr f slf sup a with
      | .error er => .error er
      | .ok va =>
        match evalExpr f slf sup b with
        | .error er => .error er
        | .ok vb => evalAdd va vb
    | .eqE a b =>
      match evalExpr f slf sup a with
      | .error er => .error er
      | .ok va =>
        match evalExpr f slf sup b with
        | .error er => .error er
        | .ok vb => .ok (.bool (Val.beq va vb))
    | .failE => .error .typeError

/-- Run a node's own assertion list with the given self and super; a body
evaluating to anything but `true` is an assertion failure, and evaluation
errors propagate (this is the external `evaluate_assert`). -/
def runAsserts : Nat → List Expr → Obj → Option Obj → Except Err Unit
  | 0, _, _, _ => .error .stackOverflow
  | _ + 1, [], _, _ => .ok ()
  | f + 1, a :: rest, slf, sup =>
    match evalExpr f slf sup a with
    | .error er => .error er
    | .ok (.bool true) => runAsserts f rest slf sup
    | .ok _ => .error .assertionFailed

/-- `ObjValue::run_assertions_raw`: if `real_this` was newly inserted into
`assertions_ran`, run the own assertions (removing the marker and
propagating on failure) and then recurse into super; if the marker was
already present, do nothing at all. -/
def run_assertions_raw : Nat → Obj → Obj → (Except Err Unit) × Obj
  | 0, o, _ => (.error .stackOverflow, o)
  | f + 1, o, realThis =>
    if hasMarker o.assertionsRan realThis.oid then (.ok (), o)
    else
      let o1 := o.insertMarker realThis.oid
      let rt := if realThis.oid = o.oid then o1 else realThis
      match runAsserts f o1.assertions rt o1.superObj with
      | .error er => (.error er, o1.removeMarker realThis.oid)
      | .ok () =>
        match o1.superObj with
        | none => (.ok (), o1)
        | some s =>
          let p := run_assertions_raw f s rt
          (p.1, o1.withSuper p.2)

/-- `ObjValue::get_raw`: consult the cache under `(key, real_this)`, else
resolve per the member/super case table, caching the successful result. -/
def get_raw : Nat → Obj → Key → Option Obj → (Except Err (Option Val)) × Obj
  | 0, o, _, _ => (.error .stackOverflow, o)
  | f + 1, o, k, rt =>
    let realThis := rt.getD o
    match cacheLookup o.valueCache (k, realThis.oid) with
    | some v => (.ok v, o)
    | none =>
      match lookupMember o.thisEntries k, o.superObj with
      | some m, none =>
        match evalExpr f realThis o.superObj m.invoke with
        | .error er => (.error er, o)
        | .ok v => (.ok (some v), o.insertCache (k, realThis.oid) (some v))
      | some m, some s =>
        match evalExpr f realThis o.superObj m.invoke with
        | .error er => (.error er, o)
        | .ok our =>
          if m.add then
            match get_raw f s k (some realThis) with
            | (.error er, s') => (.error er, o.withSuper s')
            | (.ok none, s') =>
              (.ok (some our), (o.withSuper s').insertCache (k, realThis.oid) (some our))
            | (.ok (some pv), s') =>
              match evalAdd pv our with
              | .error er => (.error er, o.withSuper s')
              | .ok w => (.ok (some w), (o.withSuper s').insertCache (k, realThis.oid) (some w))
          else
            (.ok (some our), o.insertCache (k, realThis.oid) (some our))
      | none, some s =>
        match get_raw f s k (some realThis) with
        | (.error er, s') => (.error er, o.withSuper s')
        | (.ok v, s') => (.ok v, (o.withSuper s').insertCache (k, realThis.oid) v)
      | none, none => (.ok none, o.insertCache (k, realThis.oid) none)

/-- `ObjValue::get`: run assertions with `real_this = self` (note: the
source passes the receiver itself, not the pinned `this_obj`), then
resolve with `real_this = this_obj` when pinned. -/
def get : Nat → Obj → Key → (Except Err (Option Val)) × Obj
  | 0, o, _ => (.error .stackOverflow, o)
  | f + 1, o, k =>
    match run_assertions_raw f o o with
    | (.error er, o1) => (.error er, o1)
    | (.ok (), o1) => get_raw f o1 k o1.thisObj

end

/-- `ObjValue::run_assertions`. -/
def run_assertions (f : Nat) (o : Obj) : (Except Err Unit) × Obj :=
  run_assertions_raw f o o

/-- `ObjValue::enum_fields`: depth-first, super chain first, then own
members; the visitor is modelled as the produced `(name, visibility)`
list (the only in-repo consumer, `fields_visibility`, never
short-circuits). -/
def enum_fields : Obj → List (Key × Visibility)
  | .mk _ none _ _ _ entries _ =>
      entries.map (fun p => (p.1, p.2.visibility))
  | .mk _ (some s) _ _ _ entries _ =>
      enum_fields s ++ entries.map (fun p => (p.1, p.2.visibility))

def lookupVis : List (Key × Bool) → Key → Option Bool
  | [], _ => none
  | (k, b) :: rest, key => if k = key then some b else lookupVis rest key

def setVis : List (Key × Bool) → Key → Bool → List (Key × Bool)
  | [], key, b => [(key, b)]
  | (k, b') :: rest, key, b =>
      if k = key then (key, b) :: rest else (k, b') :: setVis rest key b

/-- One step of the `fields_visibility` fold: `Normal` inserts `true` only
if absent (`entry.or_insert(true)`), `Hidden`/`Unhide` overwrite. -/
def fvStep (m : List (Key × Bool)) (k : Key) (vis : Visibility) : List (Key × Bool) :=
  match vis with
  | .normal => if (lookupVis m k).isSome then m else m ++ [(k, true)]
  | .hidden => setVis m k false
  | .unhide => setVis m k true

/-- `ObjValue::fields_visibility` (the `FxHashMap` is modelled as an
association list; its iteration order is implementation-defined and the
observable `fields_ex` view sorts). -/
def fields_visibility (o : Obj) : List (Key × Bool) :=
  (enum_fields o).foldl (fun m p => fvStep m p.1 p.2) []

def insertSorted (k : Key) : List Key → List Key
  | [] => [k]
  | x :: xs => if k ≤ x then k :: x :: xs else x :: insertSorted k xs

def sortKeys : List Key → List Key
  | [] => []
  | x :: xs => insertSorted x (sortKeys xs)

/-- `ObjValue::fields_ex`: filter by visibility then sort. -/
def fields_ex (o : Obj) (inc_hidden : Bool) : List Key :=
  sortKeys (((fields_visibility o).filter (fun p => inc_hidden || p.2)).map (fun p => p.1))

/-- `ObjValue::fields`. -/
def fields (o : Obj) : List Key :=
  fields_ex o false

/-- `ObjValue::field_visibility`: an own entry's visibility wins unless it
is `Normal`, in which case the super chain's visibility (defaulting to
`Normal`) is used; absent keys recurse into super. -/
def field_visibility : Obj → Key → Option Visibility
  | .mk _ sup _ _ _ entries _, k =>
    match lookupMember entries k with
    | some m =>
      match m.visibility with
      | .normal =>
        some ((match sup with
               | none => none
               | some s => field_visibility s k).getD .normal)
      | v => some v
    | none =>
      match sup with
      | none => none
      | some s => field_visibility s k

/-- `ObjValue::has_field_include_hidden`. -/
def has_field_include_hidden : Obj → Key → Bool
  | .mk _ sup _ _ _ entries _, k =>
    if (lookupMember entries k).isSome then true
    else
      match sup with
      | none => false
      | some s => has_field_include_hidden s k

/-- `ObjValue::has_field`. -/
def has_field (o : Obj) (k : Key) : Bool :=
  ((field_visibility o k).map Visibility.is_visible).getD false

/-- `ObjValue::has_field_ex`. -/
def has_field_ex (o : Obj) (k : Key) (inc_hidden : Bool) : Bool :=
  if inc_hidden then has_field_include_hidden o k else has_field o k

/-- `ObjValue::ptr_eq` (`Gc` identity). -/
def ptr_eq (a b : Obj) : Bool :=
  a.oid = b.oid

/-- The super chain of a node, starting at the node itself. -/
def superChain : Obj → List Obj
  | .mk i none a r t e c => [.mk i none a r t e c]
  | .mk i (some s) a r t e c => .mk i (some s) a r t e c :: superChain s

/-! Concrete objects used as test inputs, witnesses and counterexamples. -/

def ka : Key := "a"
def kx : Key := "x"
def ky : Key := "y"
def kv : Key := "v"
def kz : Key := "z"
/-- A normal-visibility, non-additive member. -/
def memN (e : Expr) : ObjMember := ⟨false, .normal, e⟩

/-- An additive (`+:`) member. -/
def memAdd (e : Expr) : ObjMember := ⟨true, .normal, e⟩

/-- A hidden (`::`) member. -/
def memHid (e : Expr) : ObjMember := ⟨false, .hidden, e⟩

/-- An unhide (`:::`) member. -/
def memUnh (e : Expr) : ObjMember := ⟨false, .unhide, e⟩

/-- A parent node whose only assertion always fails. -/
def c1parent : Obj := Obj.new 30 none [] [.lit (.bool false)]

/-- Child of `c1parent` with a constant field `y`. -/
def c1child : Obj := Obj.new 31 (some c1parent) [(ky, memN (.lit (.num 1)))] []

/-- Object with field `v = 1` and the assertion `self.v == 2`. -/
def c2o : Obj := Obj.new 60 none [(kv, memN (.lit (.num 1)))] [.eqE (.selfField kv) (.lit (.num 2))]

/-- Object with field `v = 2` (used as a pinned self). -/
def c2p : Obj := Obj.new 61 none [(kv, memN (.lit (.num 2)))] []

/-- `c2o` with `c2p` pinned as its self. -/
def c2pin : Obj := with_this c2o c2p 100

def c3parent : Obj := Obj.new 70 none [(ka, memN (.lit (.arr [.num 1])))] []

/-- `c3parent { a +: [2] }`. -/
def c3child : Obj := Obj.new 71 (some c3parent) [(ka, memAdd (.lit (.arr [.num 2])))] []

/-- `{ a +: [2] }` with no super. -/
def c3solo : Obj := Obj.new 72 none [(ka, memAdd (.lit (.arr [.num 2])))] []

/-- `{ x: self.y, y: 1 }`. -/
def c4parent : Obj :=
  Obj.new 80 none [(kx, memN (.selfField ky)), (ky, memN (.lit (.num 1)))] []

def c4childOwn : Obj := Obj.new 81 none [(ky, memN (.lit (.num 2)))] []

/-- `c4parent { y: 2 }`, built with `extend_from`. -/
def c4child : Obj := extend_from c4childOwn c4parent 82

def c4p2 : Obj := Obj.new 85 none [(kx, memN (.lit (.num 1)))] []

/-- `c4p2 { x: super.x + 10 }`. -/
def c4c2 : Obj := Obj.new 86 (some c4p2) [(kx, memN (.addE (.superField kx) (.lit (.num 10))))] []

def c5demo : Obj := Obj.new 90 none [(ka, memN (.lit (.num 1)))] []

def c7gp : Obj := Obj.new 40 none [] [.lit (.bool false)]
def c7par : Obj := Obj.new 41 (some c7gp) [] []

/-- Grandchild of the failing-assertion node `c7gp`, with field `z = 5`. -/
def c7c : Obj := Obj.new 42 (some c7par) [(kz, memN (.lit (.num 5)))] []

def v8parent : Obj := Obj.new 50 none [(kx, memHid (.lit (.num 1)))] []

/-- `{ x:: 1 } + { x: 2 }`. -/
def v8child : Obj := Obj.new 51 (some v8parent) [(kx, memN (.lit (.num 2)))] []

def v8uparent : Obj := Obj.new 52 none [(kx, memHid (.lit (.num 1)))] []

/-- `{ x:: 1 } + { x::: 2 }`. -/
def v8uchild : Obj := Obj.new 53 (some v8uparent) [(kx, memUnh (.lit (.num 2)))] []

def c9a : Obj := Obj.new 1 none [(ka, memN (.lit (.num 1)))] []
def c9b : Obj := Obj.new 2 none [(kx, memN (.lit (.num 2)))] []
def c9c : Obj := Obj.new 3 none [(ky, memN (.lit (.num 3)))] []

/-- Object with `x = self.v` and `v = 1` (to observe which self member
resolution uses once a different self is pinned). -/
def c2ra : Obj := Obj.new 63 none [(kx, memN (.selfField kv)), (kv, memN (.lit (.num 1)))] []

/-- `c2ra` with `c2p` pinned as its self. -/
def c2respin : Obj := with_this c2ra c2p 101

/-- A parent that lacks the key `a` entirely. -/
def c3parentNoA : Obj := Obj.new 73 none [] []

/-- `c3parentNoA { a +: [2] }`. -/
def c3child2 : Obj := Obj.new 74 (some c3parentNoA) [(ka, memAdd (.lit (.arr [.num 2])))] []

/-- A superless single-member object used to witness the forcing rule. -/
def c4w : Obj := Obj.new 200 none [(kx, memN (.lit (.num 7)))] []

/-- Replace a member's lazy binding by the always-failing body. -/
def stripMember (m : ObjMember) : ObjMember := ⟨m.add, m.visibility, .failE⟩

/-- Replace every member binding and every assertion along the super chain
by always-failing bodies, keeping the static skeleton (ids, keys,
visibilities, additive flags). -/
def stripDynamic : Obj → Obj
  | .mk i none _ r t e c =>
      .mk i none [.failE] r t (e.map (fun p => (p.1, stripMember p.2))) c
  | .mk i (some s) _ r t e c =>
      .mk i (some (stripDynamic s)) [.failE] r t (e.map (fun p => (p.1, stripMember p.2))) c

/-! Small facts about the node update operations. -/

@[simp] theorem thisEntries_mk (i s a r t e c) : (Obj.mk i s a r t e c).thisEntries = e := rfl

@[simp] theorem assertions_mk (i s a r t e c) : (Obj.mk i s a r t e c).assertions = a := rfl

@[simp] theorem stripMember_visibility (m : ObjMember) : (stripMember m).visibility = m.visibility := rfl

@[simp] theorem stripMember_add (m : ObjMember) : (stripMember m).add = m.add := rfl

@[simp] theorem oid_withSuper (o s : Obj) : (o.withSuper s).oid = o.oid := by
  cases o; rfl

@[simp] theorem assertionsRan_withSuper (o s : Obj) : (o.withSuper s).assertionsRan = o.assertionsRan := by
  cases o; rfl

@[simp] theorem thisObj_withSuper (o s : Obj) : (o.withSuper s).thisObj = o.thisObj := by
  cases o; rfl

@[simp] theorem thisEntries_withSuper (o s : Obj) : (o.withSuper s).thisEntries = o.thisEntries := by
  cases o; rfl

@[simp] theorem valueCache_withSuper (o s : Obj) : (o.withSuper s).valueCache = o.valueCache := by
  cases o; rfl

@[simp] theorem superObj_withSuper (o s : Obj) : (o.withSuper s).superObj = some s := by
  cases o; rfl

@[simp] theorem oid_insertMarker (o : Obj) (n : Nat) : (o.insertMarker n).oid = o.oid := by
  cases o; rfl

@[simp] theorem assertionsRan_insertMarker (o : Obj) (n : Nat) :
    (o.insertMarker n).assertionsRan = n :: o.assertionsRan := by
  cases o; rfl

@[simp] theorem superObj_insertMarker (o : Obj) (n : Nat) : (o.insertMarker n).superObj = o.superObj := by
  cases o; rfl

@[simp] theorem assertions_insertMarker (o : Obj) (n : Nat) : (o.insertMarker n).assertions = o.assertions := by
  cases o; rfl

@[simp] theorem thisObj_insertMarker (o : Obj) (n : Nat) : (o.insertMarker n).thisObj = o.thisObj := by
  cases o; rfl

@[simp] theorem thisEntries_insertMarker (o : Obj) (n : Nat) : (o.insertMarker n).thisEntries = o.thisEntries := by
  cases o; rfl

@[simp] theorem valueCache_insertMarker (o : Obj) (n : Nat) : (o.insertMarker n).valueCache = o.valueCache := by
  cases o; rfl

@[simp] theorem oid_removeMarker (o : Obj) (n : Nat) : (o.removeMarker n).oid = o.oid := by
  cases o; rfl

@[simp] theorem thisObj_removeMarker (o : Obj) (n : Nat) : (o.removeMarker n).thisObj = o.thisObj := by
  cases o; rfl

@[simp] theorem thisEntries_removeMarker (o : Obj) (n : Nat) : (o.removeMarker n).thisEntries = o.thisEntries := by
  cases o; rfl

@[simp] theorem valueCache_removeMarker (o : Obj) (n : Nat) : (o.removeMarker n).valueCache = o.valueCache := by
  cases o; rfl

@[simp] theorem oid_insertCache (o : Obj) (ck : Key × Nat) (v : Option Val) :
    (o.insertCache ck v).oid = o.oid := by
  cases o; rfl

@[simp] theorem assertionsRan_insertCache (o : Obj) (ck : Key × Nat) (v : Option Val) :
    (o.insertCache ck v).assertionsRan = o.assertionsRan := by
  cases o; rfl

@[simp] theorem thisObj_insertCache (o : Obj) (ck : Key × Nat) (v : Option Val) :
    (o.insertCache ck v).thisObj = o.thisObj := by
  cases o; rfl

@[simp] theorem thisEntries_insertCache (o : Obj) (ck : Key × Nat) (v : Option Val) :
    (o.insertCache ck v).thisEntries = o.thisEntries := by
  cases o; rfl

@[simp] theorem valueCache_insertCache (o : Obj) (ck : Key × Nat) (v : Option Val) :
    (o.insertCache ck v).valueCache = (ck, v) :: o.valueCache := by
  cases o; rfl

@[simp] theorem hasMarker_cons_self (l : List Nat) (n : Nat) : hasMarker (n :: l) n = true := by
  simp [hasMarker]

@[simp] theorem cacheLookup_cons_self (c : List ((Key × Nat) × Option Val)) (ck : Key × Nat)
    (v : Option Val) : cacheLookup ((ck, v) :: c) ck = some v := by
  simp [cacheLookup]

/-- `get_raw` never changes the receiver's identity, marker set, pinned
self or member table: it only writes its own cache and threads the
updated super chain. -/
theorem get_raw_pres (f : Nat) (o : Obj) (k : Key) (rt : Option Obj) :
    (get_raw f o k rt).2.oid = o.oid ∧
    (get_raw f o k rt).2.assertionsRan = o.assertionsRan ∧
    (get_raw f o k rt).2.thisObj = o.thisObj ∧
    (get_raw f o k rt).2.thisEntries = o.thisEntries := by
  cases f with
  | zero => simp [get_raw]
  | succ g =>
    simp only [get_raw]
    repeat' split
    all_goals simp

/-- `run_assertions_raw` never changes the receiver's identity, pinned
self, member table or value cache: it only touches marker sets and
threads the updated super chain. -/
theorem run_assertions_raw_pres (f : Nat) (o rt : Obj) :
    (run_assertions_raw f o rt).2.oid = o.oid ∧
    (run_assertions_raw f o rt).2.thisObj = o.thisObj ∧
    (run_assertions_raw f o rt).2.thisEntries = o.thisEntries ∧
    (run_assertions_raw f o rt).2.valueCache = o.valueCache := by
  cases f with
  | zero => simp [run_assertions_raw]
  | succ g =>
    simp only [run_assertions_raw]
    repeat' split
    all_goals simp

/-- After a successful assertion walk, the effective self's identity is
recorded in the receiver's marker set. -/
theorem run_assertions_raw_marker (f : Nat) (o rt o' : Obj)
    (h : run_assertions_raw f o rt = (.ok (), o')) :
    hasMarker o'.assertionsRan rt.oid = true := by
  cases f with
  | zero => simp [run_assertions_raw] at h
  | succ g =>
    simp only [run_assertions_raw] at h
    split at h
    · obtain ⟨-, rfl⟩ := Prod.mk.injEq .. ▸ h
      assumption
    · split at h
      · simp at h
      · split at h
        · obtain ⟨-, rfl⟩ := Prod.mk.injEq .. ▸ h
          simp
        · obtain ⟨-, rfl⟩ := Prod.mk.injEq .. ▸ h
          simp

/-- A fresh successful `get_raw` stores its result in the receiver's cache
under `(key, identity of the effective self)`. -/
theorem get_raw_caches (g : Nat) (o : Obj) (k : Key) (rt : Option Obj) (r : Option Val) (o' : Obj)
    (h : get_raw (g + 1) o k rt = (.ok r, o')) :
    cacheLookup o'.valueCache (k, (rt.getD o).oid) = some r := by
  simp only [get_raw] at h
  repeat' split at h
  all_goals simp_all
  all_goals (obtain ⟨rfl, rfl⟩ := h; simp_all)

/-- `field_visibility` returns `None` exactly when the key is absent from
every node of the super chain. -/
theorem fv_none_iff : ∀ (o : Obj) (k : Key),
    (field_visibility o k = none) ↔ (has_field_include_hidden o k = false)
  | .mk i none a r t e c, k => by
    cases hl : lookupMember e k with
    | some m => cases hv : m.visibility <;> simp [field_visibility, has_field_include_hidden, hl, hv]
    | none => simp [field_visibility, has_field_include_hidden, hl]
  | .mk i (some s) a r t e c, k => by
    have ih := fv_none_iff s k
    cases hl : lookupMember e k with
    | some m => cases hv : m.visibility <;> simp [field_visibility, has_field_include_hidden, hl, hv]
    | none => simp [field_visibility, has_field_include_hidden, hl, ih]

/-- The chain of `extend_from o p` consists of copies of `o`'s chain (same
members and assertions, level by level) followed by `p`'s chain itself. -/
theorem extend_from_chain : ∀ (o p : Obj) (fresh : Nat),
    (superChain (extend_from o p fresh)).map (fun n => (n.thisEntries, n.assertions)) =
      (superChain o).map (fun n => (n.thisEntries, n.assertions)) ++
        (superChain p).map (fun n => (n.thisEntries, n.assertions)) ∧
    (superChain (extend_from o p fresh)).drop (superChain o).length = superChain p
  | .mk i none a r t e c, p, fresh => by
    cases p with
    | mk pi ps pa pr pt pe pc =>
      cases ps <;>
        simp [extend_from, superChain, Obj.new]
  | .mk i (some s) a r t e c, p, fresh => by
    have ih := extend_from_chain s p (fresh + 1)
    simp [extend_from, superChain, Obj.new, ih.1, ih.2]

theorem lookup_strip (e : List (Key × ObjMember)) (k : Key) :
    lookupMember (e.map (fun p => (p.1, stripMember p.2))) k = (lookupMember e k).map stripMember := by
  induction e with
  | nil => rfl
  | cons hd tl ih =>
    cases hd with
    | mk k' m =>
      by_cases h : k' = k <;> simp [lookupMember, h, ih]

theorem enum_strip : ∀ (o : Obj), enum_fields (stripDynamic o) = enum_fields o
  | .mk i none a r t e c => by
    simp [stripDynamic, enum_fields, List.map_map, Function.comp]
  | .mk i (some s) a r t e c => by
    have ih := enum_strip s
    simp [stripDynamic, enum_fields, List.map_map, Function.comp, ih]

theorem fv_strip : ∀ (o : Obj) (k : Key),
    field_visibility (stripDynamic o) k = field_visibility o k
  | .mk i none a r t e c, k => by
    cases hl : lookupMember e k with
    | some m =>
      cases hv : m.visibility <;>
        simp [stripDynamic, field_visibility, lookup_strip, hl, hv]
    | none => simp [stripDynamic, field_visibility, lookup_strip, hl]
  | .mk i (some s) a r t e c, k => by
    have ih := fv_strip s k
    cases hl : lookupMember e k with
    | some m =>
      cases hv : m.visibility <;>
        simp [stripDynamic, field_visibility, lookup_strip, hl, hv, ih]
    | none => simp [stripDynamic, field_visibility, lookup_strip, hl, ih]

theorem hfh_strip : ∀ (o : Obj) (k : Key),
    has_field_include_hidden (stripDynamic o) k = has_field_include_hidden o k
  | .mk i none a r t e c, k => by
    simp [stripDynamic, has_field_include_hidden, lookup_strip]
  | .mk i (some s) a r t e c, k => by
    have ih := hfh_strip s k
    simp [stripDynamic, has_field_include_hidden, lookup_strip, ih]

/-! The claims. -/

/-- C1: the claim says a failed assertion's `assertions_ran` marker is
undone so that a later `get` re-runs the failed assertion, also when the
failing assertion belongs to an ancestor node.  The code diverges: when
`c1parent`'s (always-failing) assertion fails, only the parent's marker is
removed; the receiver `c1child` keeps its marker, so the second `get`
skips the entire assertion walk and resolves the field even though the
assertion still fails whenever it is actually run. -/
theorem c1_ancestor_assertion_not_retried :
    (get 20 c1child ky).1 = .error .assertionFailed ∧
    (get 20 (get 20 c1child ky).2 ky).1 = .ok (some (.num 1)) ∧
    ((get 20 c1child ky).2).assertionsRan = [31] ∧
    (((get 20 c1child ky).2).superObj.map Obj.assertionsRan) = some [] :=
  ⟨rfl, rfl, rfl, rfl⟩

/-- C2 (counterexample): the claim says assertions run with
`self = pinned_self ?? receiver`.  On `c2pin` (which pins `c2p`, whose
`v` is `2`) the assertion `self.v == 2` would succeed under the pinned
self — second conjunct — yet `get` fails it, because the code's
`run_assertions` passes the receiver itself. -/
theorem c2_pinned_self_assertion_counterexample :
    (get 15 c2pin kv).1 = .error .assertionFailed ∧
    evalExpr 15 c2p none (.eqE (.selfField kv) (.lit (.num 2))) = .ok (.bool true) :=
  ⟨rfl, rfl⟩

/-- C2 (amended): on an object carrying a pinned self, the assertions are
invoked with `self` bound to the receiver itself — for every pinned object
`p`, the assertion `self.v == 2` observes the receiver's `v = 1` and
fails — while member resolution does use the pinned self (second
conjunct: the member `x = self.v` of `c2respin` resolves through the
pinned `c2p` to `2`). -/
theorem c2_assertions_run_with_receiver :
    (∀ p : Obj, (get 15 (with_this c2o p 100) kv).1 = .error .assertionFailed) ∧
    (get 15 c2respin kx).1 = .ok (some (.num 2)) :=
  ⟨fun _ => rfl, rfl⟩

/-- C3: at an additive member, the own value is forced with
`self = effective self` and `super = the defining node's super`; when the
super chain resolves the key to `pv`, `get_raw` returns
`add(pv, our)` with the parent's value as the left operand, and when the
super chain lacks the key it returns the own value alone. -/
theorem c3_additive_field_resolution (f : Nat) (o s effS : Obj) (k : Key) (m : ObjMember)
    (our : Val)
    (hm : lookupMember o.thisEntries k = some m) (hadd : m.add = true)
    (hs : o.superObj = some s)
    (hnc : cacheLookup o.valueCache (k, effS.oid) = none)
    (hour : evalExpr f effS (some s) m.invoke = .ok our) :
    (∀ pv, (get_raw f s k (some effS)).1 = .ok (some pv) →
      (get_raw (f + 1) o k (some effS)).1 = (evalAdd pv our).map some) ∧
    ((get_raw f s k (some effS)).1 = .ok none →
      (get_raw (f + 1) o k (some effS)).1 = .ok (some our)) := by
  constructor
  · intro pv hpv
    rcases hq : get_raw f s k (some effS) with ⟨r1, s'⟩
    rw [hq] at hpv
    simp only at hpv
    subst hpv
    simp only [get_raw, Option.getD, hnc, hm, hs, hour, hadd, hq]
    cases hq2 : evalAdd pv our <;> simp [hq2, Except.map]
  · intro hpv
    rcases hq : get_raw f s k (some effS) with ⟨r1, s'⟩
    rw [hq] at hpv
    simp only at hpv
    subst hpv
    simp only [get_raw, Option.getD, hnc, hm, hs, hour, hadd, hq]
    simp

theorem c3_additive_field_resolution_witness :
    (get_raw 11 c3child ka (some c3child)).1 = .ok (some (.arr [.num 1, .num 2])) ∧
    (get_raw 11 c3child2 ka (some c3child2)).1 = .ok (some (.arr [.num 2])) := by
  constructor
  · exact (c3_additive_field_resolution 10 c3child c3parent c3child ka
      (memAdd (.lit (.arr [.num 2]))) (.arr [.num 2]) rfl rfl rfl rfl rfl).1 (.arr [.num 1]) rfl
  · exact (c3_additive_field_resolution 10 c3child2 c3parentNoA c3child2 ka
      (memAdd (.lit (.arr [.num 2]))) (.arr [.num 2]) rfl rfl rfl rfl rfl).2 rfl

/-- C4: forcing a member passes `self = the effective self of the lookup`
and `super = the defining node's super` (first conjunct: whatever value
the binding yields under those arguments is what `get_raw` returns);
consequently a parent field reading `self.y` sees the child's override
(`c4child.get x = 2`) and a child field reading `super.x` sees the
parent's `x` (`c4c2.get x = 11`). -/
theorem c4_member_forcing_late_binding (f : Nat) (o effS : Obj) (k : Key) (m : ObjMember)
    (v : Val)
    (hm : lookupMember o.thisEntries k = some m) (hadd : m.add = false)
    (hnc : cacheLookup o.valueCache (k, effS.oid) = none)
    (hv : evalExpr f effS o.superObj m.invoke = .ok v) :
    (get_raw (f + 1) o k (some effS)).1 = .ok (some v) ∧
    (get 25 c4child kx).1 = .ok (some (.num 2)) ∧
    (get 25 c4c2 kx).1 = .ok (some (.num 11)) := by
  refine ⟨?_, rfl, rfl⟩
  cases hs : o.superObj with
  | none =>
    rw [hs] at hv
    simp only [get_raw, Option.getD, hnc, hm, hs, hv]
  | some s =>
    rw [hs] at hv
    simp only [get_raw, Option.getD, hnc, hm, hs, hv, hadd]
    simp

theorem c4_member_forcing_late_binding_witness :
    (get_raw 6 c4w kx (some c4w)).1 = .ok (some (.num 7)) :=
  (c4_member_forcing_late_binding 5 c4w c4w kx (memN (.lit (.num 7))) (.num 7)
    rfl rfl rfl rfl).1

/-- C5: `get` is idempotent via memoization: if `get` returns `.ok r` and
the updated receiver `o₁`, then `get` on `o₁` returns the same `r` with no
further state change, and the result (also when `r = none`) sits in the
receiver's `value_cache` under `(key, identity of the effective self)`,
from which the repeat call is answered. -/
theorem c5_get_idempotent_memoized (f : Nat) (o : Obj) (k : Key) (r : Option Val) (o₁ : Obj)
    (h : get f o k = (.ok r, o₁)) :
    get f o₁ k = (.ok r, o₁) ∧
    cacheLookup o₁.valueCache (k, (o₁.thisObj.getD o₁).oid) = some r := by
  cases f with
  | zero => simp [get] at h
  | succ g =>
    simp only [get] at h
    rcases hra : run_assertions_raw g o o with ⟨ra, oA⟩
    rw [hra] at h
    cases ra with
    | error e => simp at h
    | ok u =>
      cases u
      simp only at h
      cases g with
      | zero => simp [get_raw] at h
      | succ g' =>
        have hm : hasMarker oA.assertionsRan o.oid = true :=
          run_assertions_raw_marker _ _ _ _ hra
        have pres_ra := run_assertions_raw_pres (g' + 1) o o
        rw [hra] at pres_ra
        have pres_gr := get_raw_pres (g' + 1) oA k oA.thisObj
        rw [h] at pres_gr
        have hc := get_raw_caches g' oA k oA.thisObj r o₁ h
        have hid : (o₁.thisObj.getD o₁).oid = (oA.thisObj.getD oA).oid := by
          cases hto : oA.thisObj with
          | some p =>
            rw [pres_gr.2.2.1, hto]
            rfl
          | none =>
            rw [pres_gr.2.2.1, hto]
            simp [Option.getD, pres_gr.1]
        have hc' : cacheLookup o₁.valueCache (k, (o₁.thisObj.getD o₁).oid) = some r := by
          rw [hid]; exact hc
        refine ⟨?_, hc'⟩
        have hmark : hasMarker o₁.assertionsRan o₁.oid = true := by
          rw [pres_gr.2.1, pres_gr.1, pres_ra.1]
          exact hm
        have hra2 : run_assertions_raw (g' + 1) o₁ o₁ = (.ok (), o₁) := by
          simp only [run_assertions_raw]
          rw [hmark]
          simp
        simp only [get]
        rw [hra2]
        simp only
        simp only [get_raw]
        rw [hc']

theorem c5_get_idempotent_memoized_witness :
    get 10 (get 10 c5demo ka).2 ka = (.ok (some (.num 1)), (get 10 c5demo ka).2) ∧
    cacheLookup ((get 10 c5demo ka).2).valueCache
      (ka, (((get 10 c5demo ka).2).thisObj.getD ((get 10 c5demo ka).2)).oid) =
      some (some (.num 1)) :=
  c5_get_idempotent_memoized 10 c5demo ka (some (.num 1)) ((get 10 c5demo ka).2) (by rfl)

/-- C7: the claim says no call to `get` returns a value before all
ancestors' assertions for the effective self have succeeded.  On the chain
`c7c → c7par → c7gp` the grandparent's assertion always fails: the first
`get` fails, but the second returns `Some(5)` while the grandparent's
`assertions_ran` is still empty — its assertions never succeeded for this
effective self, before or after. -/
theorem c7_value_returned_without_ancestor_assertions :
    (get 25 c7c kz).1 = .error .assertionFailed ∧
    (get 25 (get 25 c7c kz).2 kz).1 = .ok (some (.num 5)) ∧
    (((get 25 c7c kz).2.superObj.bind Obj.superObj).map Obj.assertionsRan) = some [] ∧
    (((get 25 (get 25 c7c kz).2 kz).2.superObj.bind Obj.superObj).map Obj.assertionsRan) =
      some [] :=
  ⟨rfl, rfl, rfl, rfl⟩

/-- C8: `field_visibility` walks the chain from the receiver down, an own
entry's visibility winning unless `Normal` (which defers to the nearest
ancestor), and returns `None` exactly when the key is absent everywhere
(first conjunct); consequently `{x:: 1} + {x: 2}` has `has_field x =
false` but `has_field_ex x true = true`, while `{x:: 1} + {x::: 2}` has
`has_field x = true`. -/
theorem c8_field_visibility_walk :
    (∀ (o : Obj) (k : Key),
      (field_visibility o k = none) ↔ (has_field_include_hidden o k = false)) ∧
    has_field v8child kx = false ∧
    has_field_ex v8child kx true = true ∧
    has_field v8uchild kx = true :=
  ⟨fv_none_iff, rfl, rfl, rfl⟩

/-- C9: `extend_from` keeps the receiver's own members and assertions at
every level and grafts the parent at the bottom of the chain: the new
chain is a member/assertion-preserving copy of the receiver's chain
followed by the parent's chain itself; hence
`a.extend_from(b).extend_from(c)` has `c` as its deepest ancestor. -/
theorem c9_extend_from_grafts_parent :
    (∀ (o p : Obj) (fresh : Nat),
      (superChain (extend_from o p fresh)).map (fun n => (n.thisEntries, n.assertions)) =
        (superChain o).map (fun n => (n.thisEntries, n.assertions)) ++
          (superChain p).map (fun n => (n.thisEntries, n.assertions)) ∧
      (superChain (extend_from o p fresh)).drop (superChain o).length = superChain p) ∧
    ((superChain (extend_from (extend_from c9a c9b 10) c9c 20)).getLast?) = some c9c :=
  ⟨extend_from_chain, rfl⟩

/-- C10: the enumeration and visibility queries depend only on the static
skeleton of the object: replacing every member binding and every assertion
along the chain by always-failing bodies (`stripDynamic`) changes none of
`enum_fields`, `fields_visibility`, `fields_ex`, `fields`,
`field_visibility`, `has_field`, `has_field_ex` — so these total queries
never invoke a member's `LazyBinding` and never run assertions. -/
theorem c10_enumeration_static (o : Obj) (k : Key) (b : Bool) :
    enum_fields (stripDynamic o) = enum_fields o ∧
    fields_visibility (stripDynamic o) = fields_visibility o ∧
    fields_ex (stripDynamic o) b = fields_ex o b ∧
    fields (stripDynamic o) = fields o ∧
    field_visibility (stripDynamic o) k = field_visibility o k ∧
    has_field (stripDynamic o) k = has_field o k ∧
    has_field_ex (stripDynamic o) k b = has_field_ex o k b := by
  have h1 : enum_fields (stripDynamic o) = enum_fields o := enum_strip o
  have h2 : fields_visibility (stripDynamic o) = fields_visibility o := by
    rw [fields_visibility, fields_visibility, h1]
  have h3 : ∀ b', fields_ex (stripDynamic o) b' = fields_ex o b' := by
    intro b'
    rw [fields_ex, fields_ex, h2]
  have h5 : field_visibility (stripDynamic o) k = field_visibility o k := fv_strip o k
  have h6 : has_field (stripDynamic o) k = has_field o k := by
    rw [has_field, has_field, h5]
  refine ⟨h1, h2, h3 b, ?_, h5, h6, ?_⟩
  · rw [fields, fields, h3]
  · rw [has_field_ex, has_field_ex, h6, hfh_strip o k]

end JrObj
